import Mathlib

/-!
# Verification of `hyper` client response construction (src/client/response.rs)

Shallow embedding of `Response::new`, `Response::read`, `Response::unwrap`
and `Response::status_raw` from the repository's `src/client/response.rs`,
together with models of the external collaborators (status-line parser,
header collection, body readers, buffered transport) that the file uses.
External collaborators are not part of the repository sources available here;
each such definition carries a doc comment starting `Modelled from the spec:`
and follows the specification's description of its interface.

Bytes are modelled as lists of characters (all data in play is ASCII).
-/

namespace Hyper

/-- Wire bytes, modelled as a list of characters (ASCII data). -/
abbrev Bytes := List Char

/-- Modelled from the spec: the error kinds of §7 that response construction
can surface (`HttpStatusError` is the crate error returned at
`response.rs` line 34; the others are produced by the external status-line
and header parsers, which the spec names MalformedStatusLine,
MalformedHeaders and InvalidContentLength). -/
inductive HttpError where
  | httpStatusError
  | malformedStatusLine
  | malformedHeaders
  | invalidContentLength
deriving DecidableEq

/-- Modelled from the spec: HTTP version of the status line (`version::HttpVersion`). -/
inductive HttpVersion where
  | http10
  | http11
deriving DecidableEq

/-- Modelled from the spec: `RawStatus` — the numeric code paired with the
reason phrase, preserved verbatim (`http::RawStatus`). -/
structure RawStatus where
  code : Nat
  reason : String
deriving DecidableEq

/-- Modelled from the spec: the closed set of enumerated well-known status
codes of `status::StatusCode` (the standard registered HTTP codes; `999`
deliberately has no mapping). -/
def knownStatusCodes : List Nat :=
  [100, 101, 102,
   200, 201, 202, 203, 204, 205, 206, 207, 208, 226,
   300, 301, 302, 303, 304, 305, 306, 307, 308,
   400, 401, 402, 403, 404, 405, 406, 407, 408, 409, 410, 411, 412, 413,
   414, 415, 416, 417, 418, 421, 422, 423, 424, 426, 428, 429, 431, 451,
   500, 501, 502, 503, 504, 505, 506, 507, 508, 510, 511]

/-- Modelled from the spec: `status::StatusCode`, an enumerated, closed-set
representation of well-known codes, carried with the numeric value it
enumerates. -/
abbrev StatusCode := {n : Nat // n ∈ knownStatusCodes}

/-- Modelled from the spec: `FromPrimitive::from_u16` for `StatusCode` —
`some` exactly when the numeric code has an enumerated mapping. -/
def StatusCode.fromU16 (n : Nat) : Option StatusCode :=
  if h : n ∈ knownStatusCodes then some ⟨n, h⟩ else none

/-- The numeric value of an enumerated status code (`StatusCode as u16`). -/
def StatusCode.toU16 (s : StatusCode) : Nat := s.val

theorem StatusCode.fromU16_toU16 {n : Nat} {s : StatusCode}
    (h : StatusCode.fromU16 n = some s) : StatusCode.toU16 s = n := by
  unfold StatusCode.fromU16 at h
  split at h
  · cases h; rfl
  · cases h

/-- Modelled from the spec: a transfer-coding token of the ordered
Transfer-Encoding sequence (`header::common::transfer_encoding::Encoding`);
`Chunked` is the distinguished token the selector looks for. -/
inductive Coding where
  | chunked
  | other (name : String)
deriving DecidableEq

/-- Modelled from the spec: the queryable header collection interface the core
consumes — existence checks (`has::<H>()`) and typed retrieval (`get::<H>()`)
for Transfer-Encoding and Content-Length. The two are kept as separate
fields because the source calls them separately (and panics on the
inconsistent combination via `unreachable!()`). -/
structure Headers where
  hasTE : Bool
  getTE : Option (List Coding)
  hasCL : Bool
  getCL : Option Nat
deriving DecidableEq

/-- The empty header collection (`Headers::new()`). -/
def Headers.empty : Headers := ⟨false, none, false, none⟩

/-- Consistency of the external header collection: a positive existence check
implies typed retrieval succeeds. -/
def Headers.consistent (h : Headers) : Prop :=
  (h.hasTE = true → h.getTE.isSome = true) ∧ (h.hasCL = true → h.getCL.isSome = true)

/-! ## Byte-level parsing helpers (modelled external parsers) -/

/-- Modelled from the spec: split one CRLF-terminated line off a buffered
source; `none` when no well-formed line is available. -/
def takeLine : Bytes → Option (Bytes × Bytes)
  | [] => none
  | c :: rest =>
    if c = '\r' then
      match rest with
      | '\n' :: r2 => some ([], r2)
      | _ => none
    else
      match takeLine rest with
      | some p => some (c :: p.1, p.2)
      | none => none

/-- Drop an expected leading byte sequence, or fail. -/
def dropPrefix? : Bytes → Bytes → Option Bytes
  | [], input => some input
  | _ :: _, [] => none
  | p :: ps, c :: cs => if c = p then dropPrefix? ps cs else none

/-- Split at the first space (the space is consumed); if there is no space the
whole input is the first component. -/
def splitSpace : Bytes → Bytes × Bytes
  | [] => ([], [])
  | c :: rest =>
    if c = ' ' then ([], rest)
    else
      let p := splitSpace rest
      (c :: p.1, p.2)

/-- Split at the first colon (the colon is consumed), or fail. -/
def splitColon : Bytes → Option (Bytes × Bytes)
  | [] => none
  | c :: rest =>
    if c = ':' then some ([], rest)
    else
      match splitColon rest with
      | some p => some (c :: p.1, p.2)
      | none => none

/-- Drop leading spaces. -/
def skipSpaces : Bytes → Bytes
  | [] => []
  | c :: rest => if c = ' ' then skipSpaces rest else c :: rest

/-- Split on commas (separators consumed, no trimming). -/
def splitCommas : Bytes → List Bytes
  | [] => [[]]
  | c :: rest =>
    if c = ',' then [] :: splitCommas rest
    else
      match splitCommas rest with
      | t :: ts => (c :: t) :: ts
      | [] => [[c]]

/-- ASCII lower-casing of a byte sequence (header names are case-insensitive). -/
def lowerAscii (l : Bytes) : Bytes := l.map Char.toLower

/-- Parse a non-empty all-digit byte sequence as a non-negative integer. -/
def parseNat? (l : Bytes) : Option Nat :=
  if l = [] then none
  else if l.all Char.isDigit then
    some (l.foldl (fun a c => a * 10 + (c.toNat - 48)) 0)
  else none

/-- Hexadecimal digit test. -/
def isHexChar (c : Char) : Bool :=
  c.isDigit || ('a' ≤ c && c ≤ 'f') || ('A' ≤ c && c ≤ 'F')

/-- Value of a hexadecimal digit. -/
def hexVal (c : Char) : Nat :=
  if c.isDigit then c.toNat - 48
  else if 'a' ≤ c then c.toNat - 87
  else c.toNat - 55

/-- Parse a non-empty all-hex byte sequence (a chunk-size line). -/
def parseHex? (l : Bytes) : Option Nat :=
  if l = [] then none
  else if l.all isHexChar then
    some (l.foldl (fun a c => a * 16 + hexVal c) 0)
  else none

/-- Modelled from the spec: parse the content of a status line after the
version prefix — numeric code, one space, reason phrase. -/
def parseCodeReason (v : HttpVersion) (tail : Bytes) :
    Except HttpError (HttpVersion × RawStatus) :=
  let p := splitSpace tail
  match parseNat? p.1 with
  | some code => .ok (v, ⟨code, String.mk p.2⟩)
  | none => .error .malformedStatusLine

/-- Modelled from the spec: parse one status line,
`(version, numeric_code, reason)` or a parse error. -/
def parseStatusLine (line : Bytes) : Except HttpError (HttpVersion × RawStatus) :=
  match dropPrefix? ("HTTP/1.1 ".toList) line with
  | some tail => parseCodeReason .http11 tail
  | none =>
    match dropPrefix? ("HTTP/1.0 ".toList) line with
    | some tail => parseCodeReason .http10 tail
    | none => .error .malformedStatusLine

/-- Modelled from the spec: `http::read_status_line` — consume the status line
from the buffered source and return the parse together with the rest of the
stream. -/
def read_status_line (input : Bytes) :
    Except HttpError ((HttpVersion × RawStatus) × Bytes) :=
  match takeLine input with
  | none => .error .malformedStatusLine
  | some p =>
    match parseStatusLine p.1 with
    | .ok vr => .ok (vr, p.2)
    | .error e => .error e

/-- Modelled from the spec: classify one transfer-coding token (tokens are
case-insensitive; `chunked` is the distinguished token). -/
def tokenToCoding (t : Bytes) : Coding :=
  let t2 := skipSpaces t
  if lowerAscii t2 = "chunked".toList then Coding.chunked
  else Coding.other (String.mk t2)

/-- Modelled from the spec: one pass of `Headers::from_raw` — consume header
lines until the blank line; multiple Transfer-Encoding occurrences merge into
one ordered token sequence; a Content-Length value that does not parse as a
non-negative integer aborts construction (InvalidContentLength). Fuel bounds
the recursion by the input length. -/
def fromRawAux : Nat → Headers → Bytes → Except HttpError (Headers × Bytes)
  | 0, _, _ => .error .malformedHeaders
  | Nat.succ fuel, h, input =>
    match takeLine input with
    | none => .error .malformedHeaders
    | some (line, rest) =>
      if line = [] then .ok (h, rest)
      else
        match splitColon line with
        | none => .error .malformedHeaders
        | some (name, value) =>
          if lowerAscii name = "transfer-encoding".toList then
            let toks := (splitCommas value).map tokenToCoding
            fromRawAux fuel
              { h with hasTE := true, getTE := some (h.getTE.getD [] ++ toks) } rest
          else if lowerAscii name = "content-length".toList then
            match parseNat? (skipSpaces value) with
            | some n => fromRawAux fuel { h with hasCL := true, getCL := some n } rest
            | none => .error .invalidContentLength
          else fromRawAux fuel h rest

/-- Modelled from the spec: `Headers::from_raw` — parse the header block off
the buffered source, returning the collection and the remaining stream. -/
def Headers.from_raw (input : Bytes) : Except HttpError (Headers × Bytes) :=
  fromRawAux (input.length + 1) Headers.empty input

/-! ## Body readers -/

/-- Result of one read call: some bytes, or end-of-stream. -/
inductive ReadResult where
  | data (bytes : Bytes)
  | eof
deriving DecidableEq

/-- Modelled from the spec: the buffered byte source wrapping the transport.
Per §2 the transport "can be wrapped and later unwrapped without data loss of
unread bytes", so the source is represented transparently by its unread
bytes. -/
abbrev BufferedSource := Bytes

/-- Modelled from the spec: `BufferedReader::into_inner` — recover the
transport; no unread byte is lost. -/
def BufferedSource.unwrap (s : BufferedSource) : Bytes := s

/-- Modelled from the spec: a raw transport read — bytes or end-of-stream. -/
def streamRead (t : Bytes) (n : Nat) : ReadResult × Bytes :=
  if t.isEmpty then (.eof, t) else (.data (t.take n), t.drop n)

/-- The tagged union of the three body reader adapters
(`http::HttpReader`): `SizedReader` (fixed length), `ChunkedReader`
(chunk-decoding state: `none` = expecting a chunk-size line, `some 0` =
terminated, `some (k+1)` = `k+1` bytes left in the current chunk), and
`EofReader` (read to close). Each wraps the buffered source. -/
inductive HttpReader where
  | sizedReader (s : BufferedSource) (remaining : Nat)
  | chunkedReader (s : BufferedSource) (state : Option Nat)
  | eofReader (s : BufferedSource)
deriving DecidableEq

/-- Drop one leading CRLF if present. -/
def dropCrlf : Bytes → Bytes
  | '\r' :: '\n' :: r => r
  | s => s

/-- Modelled from the spec (§4.2): the unified read operation of the three
adapters. `FixedLength` truncates to the remaining count and reports
end-of-stream once it reaches zero; `ReadToClose` passes reads through until
the source is exhausted; `Chunked` drains one chunk at a time and stops
permanently after the terminating zero-size chunk. -/
def HttpReader.read (r : HttpReader) (n : Nat) : ReadResult × HttpReader :=
  match r with
  | .sizedReader s remaining =>
    if remaining = 0 then (.eof, .sizedReader s remaining)
    else
      let taken := s.take (min n remaining)
      if taken.isEmpty then (.eof, .sizedReader s remaining)
      else (.data taken, .sizedReader (s.drop taken.length) (remaining - taken.length))
  | .eofReader s =>
    if s.isEmpty then (.eof, .eofReader s)
    else (.data (s.take n), .eofReader (s.drop n))
  | .chunkedReader s st =>
    match st with
    | some 0 => (.eof, .chunkedReader s (some 0))
    | some (Nat.succ m) =>
      let taken := s.take (min n (m + 1))
      if taken.isEmpty then (.eof, .chunkedReader s (some 0))
      else if taken.length = m + 1 then
        (.data taken, .chunkedReader (dropCrlf (s.drop taken.length)) none)
      else (.data taken, .chunkedReader (s.drop taken.length) (some (m + 1 - taken.length)))
    | none =>
      match takeLine s with
      | none => (.eof, .chunkedReader s (some 0))
      | some (line, rest) =>
        match parseHex? line with
        | none => (.eof, .chunkedReader rest (some 0))
        | some 0 => (.eof, .chunkedReader (dropCrlf rest) (some 0))
        | some (Nat.succ m) =>
          let taken := rest.take (min n (m + 1))
          if taken.isEmpty then (.eof, .chunkedReader rest (some 0))
          else if taken.length = m + 1 then
            (.data taken, .chunkedReader (dropCrlf (rest.drop taken.length)) none)
          else (.data taken, .chunkedReader (rest.drop taken.length) (some (m + 1 - taken.length)))

/-- Modelled from the spec: `HttpReader::unwrap` (`into_inner`) — recover the
buffered source from any adapter. -/
def HttpReader.unwrap : HttpReader → BufferedSource
  | .sizedReader s _ => s
  | .chunkedReader s _ => s
  | .eofReader s => s

/-! ## Framing selection (response.rs lines 41–65) -/

/-- Outcome of the framing-selection block of `Response::new`: either a body
reader, or the `unreachable!()` panic. -/
inductive BodySel where
  | panic
  | reader (r : HttpReader)
deriving DecidableEq

/-- The diagnostic logged at response.rs line 45 for multi-coding
Transfer-Encoding. -/
def multiCodingDiag : String := "TODO: #2 handle other codings"

/-- The diagnostic logged at response.rs line 51. -/
def notChunkedDiag : String := "not chuncked. read till eof"

/-- The diagnostic logged at response.rs line 63. -/
def neitherHeaderDiag : String := "neither Transfer-Encoding nor Content-Length"

/-- The framing-selection block of `Response::new` (response.rs lines 41–65),
translated clause by clause: Transfer-Encoding first (chunked anywhere in the
token sequence selects `ChunkedReader`, otherwise `EofReader`, a multi-token
sequence only logs a diagnostic), else Content-Length selects `SizedReader`,
else `EofReader`; `headers.get` returning nothing after a positive
`headers.has` hits `unreachable!()`. Returns the outcome together with the
debug diagnostics in emission order. -/
def selectBody (headers : Headers) (stream : BufferedSource) : BodySel × List String :=
  if headers.hasTE then
    match headers.getTE with
    | some codings =>
      let diag := if codings.length > 1 then [multiCodingDiag] else []
      if Coding.chunked ∈ codings then
        (.reader (.chunkedReader stream none), diag)
      else
        (.reader (.eofReader stream), diag ++ [notChunkedDiag])
    | none => (.panic, [])
  else if headers.hasCL then
    match headers.getCL with
    | some len => (.reader (.sizedReader stream len), [])
    | none => (.panic, [])
  else (.reader (.eofReader stream), [neitherHeaderDiag])

/-! ## Response (response.rs lines 15–92) -/

/-- `client::Response` — status, headers, version, the raw status pair and
the body reader (response.rs lines 15–24). -/
structure Response where
  status : StatusCode
  headers : Headers
  version : HttpVersion
  status_raw : RawStatus
  body : HttpReader
deriving DecidableEq

/-- Outcome of `Response::new`: `HttpResult<Response>` extended with the
`unreachable!()` panic possibility of the selection block. -/
inductive NewResult where
  | ok (r : Response)
  | err (e : HttpError)
  | panic
deriving DecidableEq

/-- `Response::new` (response.rs lines 29–74): wrap the stream in a buffered
reader, read the status line, map the numeric code through
`FromPrimitive::from_u16` (returning `Err(HttpStatusError)` absent a
mapping), parse headers, run the framing selection, assemble the handle. -/
def Response.new (stream : Bytes) : NewResult :=
  match read_status_line stream with
  | .error e => .err e
  | .ok (vr, s1) =>
    match StatusCode.fromU16 vr.2.code with
    | none => .err .httpStatusError
    | some status =>
      match Headers.from_raw s1 with
      | .error e => .err e
      | .ok (headers, s2) =>
        match (selectBody headers s2).1 with
        | .panic => .panic
        | .reader body =>
          .ok { status := status, headers := headers, version := vr.1,
                status_raw := vr.2, body := body }

/-- `Response::status_raw` accessor (response.rs lines 77–79): returns the
raw status pair stored in the handle. -/
def Response.statusRawAcc (r : Response) : RawStatus := r.status_raw

/-- `Reader::read` for `Response` (response.rs lines 88–91): delegate to the
body reader. -/
def Response.read (r : Response) (n : Nat) : ReadResult × Response :=
  let p := r.body.read n
  (p.1, { r with body := p.2 })

/-- `Response::unwrap` (response.rs lines 82–84): descend through the body
reader and the buffered source, returning the transport. -/
def Response.unwrap (r : Response) : Bytes :=
  BufferedSource.unwrap (HttpReader.unwrap r.body)

/-! ## Helper lemmas -/

theorem takeLine_append (xs rest : Bytes) (h : '\r' ∉ xs) :
    takeLine (xs ++ '\r' :: '\n' :: rest) = some (xs, rest) := by
  induction xs with
  | nil => simp [takeLine]
  | cons c cs ih =>
    have hc : ¬ c = '\r' := fun hh => h (by rw [← hh]; exact List.mem_cons_self c cs)
    have hcs : '\r' ∉ cs := fun hm => h (List.mem_cons_of_mem c hm)
    simp [takeLine, hc, ih hcs]

theorem dropPrefix?_append (p t : Bytes) : dropPrefix? p (p ++ t) = some t := by
  induction p with
  | nil => simp [dropPrefix?]
  | cons c cs ih => simp [dropPrefix?, ih]

theorem splitSpace_append (xs rest : Bytes) (h : ' ' ∉ xs) :
    splitSpace (xs ++ ' ' :: rest) = (xs, rest) := by
  induction xs with
  | nil => simp [splitSpace]
  | cons c cs ih =>
    have hc : ¬ c = ' ' := fun hh => h (by rw [← hh]; exact List.mem_cons_self c cs)
    have hcs : ' ' ∉ cs := fun hm => h (List.mem_cons_of_mem c hm)
    simp [splitSpace, hc, ih hcs]

theorem splitColon_append (xs rest : Bytes) (h : ':' ∉ xs) :
    splitColon (xs ++ ':' :: rest) = some (xs, rest) := by
  induction xs with
  | nil => simp [splitColon]
  | cons c cs ih =>
    have hc : ¬ c = ':' := fun hh => h (by rw [← hh]; exact List.mem_cons_self c cs)
    have hcs : ':' ∉ cs := fun hm => h (List.mem_cons_of_mem c hm)
    simp [splitColon, hc, ih hcs]

theorem parseNat?_all_digits {l : Bytes} {n : Nat} (h : parseNat? l = some n) :
    l.all Char.isDigit = true := by
  unfold parseNat? at h
  split at h
  · cases h
  · split at h
    · assumption
    · cases h

theorem all_digits_not_mem {l : Bytes} (hall : l.all Char.isDigit = true) {c : Char}
    (hc : c.isDigit = false) : c ∉ l := by
  intro hm
  have hd := List.all_eq_true.mp hall c hm
  rw [hc] at hd
  cases hd

theorem skipSpaces_all_digits {l : Bytes} (h : l.all Char.isDigit = true) :
    skipSpaces l = l := by
  cases l with
  | nil => rfl
  | cons c cs =>
    have hc : c.isDigit = true := List.all_eq_true.mp h c (List.mem_cons_self c cs)
    have hne : ¬ c = ' ' := by
      intro hh
      rw [hh] at hc
      exact absurd hc (by decide)
    simp [skipSpaces, hne]

theorem read_status_line_append (digits reason rest : Bytes) (code : Nat)
    (hd : parseNat? digits = some code) (hr : '\r' ∉ reason) :
    read_status_line ("HTTP/1.1 ".toList ++ digits ++ ' ' :: reason ++ '\r' :: '\n' :: rest)
      = Except.ok ((HttpVersion.http11, ⟨code, String.mk reason⟩), rest) := by
  have hall := parseNat?_all_digits hd
  have hcr : '\r' ∉ digits := all_digits_not_mem hall (by decide)
  have hsp : ' ' ∉ digits := all_digits_not_mem hall (by decide)
  have hline : '\r' ∉ ("HTTP/1.1 ".toList ++ digits ++ ' ' :: reason) := by
    intro hmem
    rcases List.mem_append.mp hmem with h12 | h34
    · rcases List.mem_append.mp h12 with h1 | h2
      · exact absurd h1 (by decide)
      · exact hcr h2
    · rcases List.mem_cons.mp h34 with h3 | h4
      · exact absurd h3 (by decide)
      · exact hr h4
  unfold read_status_line
  rw [takeLine_append _ _ hline]
  simp only []
  unfold parseStatusLine
  rw [List.append_assoc "HTTP/1.1 ".toList digits (' ' :: reason)]
  rw [dropPrefix?_append "HTTP/1.1 ".toList (digits ++ ' ' :: reason)]
  simp only []
  unfold parseCodeReason
  rw [splitSpace_append digits reason hsp]
  simp [hd]

theorem read_status_line_200ok (tail : Bytes) :
    read_status_line ("HTTP/1.1 200 OK".toList ++ '\r' :: '\n' :: tail)
      = Except.ok ((HttpVersion.http11, ⟨200, "OK"⟩), tail) := by
  rw [show "HTTP/1.1 200 OK".toList
      = "HTTP/1.1 ".toList ++ "200".toList ++ ' ' :: "OK".toList from by decide]
  exact read_status_line_append "200".toList "OK".toList tail 200 (by decide) (by decide)

theorem fromRawAux_cl_ok (fuel : Nat) (h : Headers) (value rest : Bytes)
    (hv : '\r' ∉ value) (n : Nat) (hp : parseNat? (skipSpaces value) = some n) :
    fromRawAux (fuel + 2) h
        ("Content-Length: ".toList ++ value ++ '\r' :: '\n' :: '\r' :: '\n' :: rest)
      = Except.ok ({h with hasCL := true, getCL := some n}, rest) := by
  have hxs : '\r' ∉ ("Content-Length: ".toList ++ value) := by
    intro hmem
    rcases List.mem_append.mp hmem with h1 | h2
    · exact absurd h1 (by decide)
    · exact hv h2
  have e : "Content-Length: ".toList ++ value ++ '\r' :: '\n' :: '\r' :: '\n' :: rest
      = ("Content-Length: ".toList ++ value) ++ '\r' :: '\n' :: ('\r' :: '\n' :: rest) := by
    simp
  have e2 : "Content-Length: ".toList ++ value
      = "Content-Length".toList ++ ':' :: ' ' :: value := by
    rw [show "Content-Length: ".toList = "Content-Length".toList ++ [':', ' '] from by decide]
    simp
  have hnn : ¬("Content-Length: ".toList ++ value = ([] : Bytes)) := by
    intro heq
    obtain ⟨ha, _⟩ := List.append_eq_nil.mp heq
    exact absurd ha (by decide)
  rw [show fuel + 2 = Nat.succ (fuel + 1) from rfl]
  unfold fromRawAux
  rw [e, takeLine_append _ _ hxs]
  simp only []
  rw [if_neg hnn]
  rw [e2, splitColon_append "Content-Length".toList (' ' :: value) (by decide)]
  simp only []
  rw [if_neg (show ¬(lowerAscii "Content-Length".toList = "transfer-encoding".toList)
    from by decide)]
  rw [if_pos (show lowerAscii "Content-Length".toList = "content-length".toList
    from by decide)]
  rw [show skipSpaces (' ' :: value) = skipSpaces value from by simp [skipSpaces]]
  rw [hp]
  rw [show fuel + 1 = Nat.succ fuel from rfl]
  unfold fromRawAux
  simp [takeLine]

theorem fromRawAux_cl_err (fuel : Nat) (h : Headers) (value rest : Bytes)
    (hv : '\r' ∉ value) (hp : parseNat? (skipSpaces value) = none) :
    fromRawAux (fuel + 2) h
        ("Content-Length: ".toList ++ value ++ '\r' :: '\n' :: '\r' :: '\n' :: rest)
      = Except.error HttpError.invalidContentLength := by
  have hxs : '\r' ∉ ("Content-Length: ".toList ++ value) := by
    intro hmem
    rcases List.mem_append.mp hmem with h1 | h2
    · exact absurd h1 (by decide)
    · exact hv h2
  have e : "Content-Length: ".toList ++ value ++ '\r' :: '\n' :: '\r' :: '\n' :: rest
      = ("Content-Length: ".toList ++ value) ++ '\r' :: '\n' :: ('\r' :: '\n' :: rest) := by
    simp
  have e2 : "Content-Length: ".toList ++ value
      = "Content-Length".toList ++ ':' :: ' ' :: value := by
    rw [show "Content-Length: ".toList = "Content-Length".toList ++ [':', ' '] from by decide]
    simp
  have hnn : ¬("Content-Length: ".toList ++ value = ([] : Bytes)) := by
    intro heq
    obtain ⟨ha, _⟩ := List.append_eq_nil.mp heq
    exact absurd ha (by decide)
  rw [show fuel + 2 = Nat.succ (fuel + 1) from rfl]
  unfold fromRawAux
  rw [e, takeLine_append _ _ hxs]
  simp only []
  rw [if_neg hnn]
  rw [e2, splitColon_append "Content-Length".toList (' ' :: value) (by decide)]
  simp only []
  rw [if_neg (show ¬(lowerAscii "Content-Length".toList = "transfer-encoding".toList)
    from by decide)]
  rw [if_pos (show lowerAscii "Content-Length".toList = "content-length".toList
    from by decide)]
  rw [show skipSpaces (' ' :: value) = skipSpaces value from by simp [skipSpaces]]
  rw [hp]

theorem from_raw_cl_ok (value rest : Bytes) (hv : '\r' ∉ value) (n : Nat)
    (hp : parseNat? (skipSpaces value) = some n) :
    Headers.from_raw
        ("Content-Length: ".toList ++ value ++ '\r' :: '\n' :: '\r' :: '\n' :: rest)
      = Except.ok (⟨false, none, true, some n⟩, rest) := by
  unfold Headers.from_raw
  have hlen : ("Content-Length: ".toList ++ value
      ++ '\r' :: '\n' :: '\r' :: '\n' :: rest).length + 1
      = (("Content-Length: ".toList ++ value
          ++ '\r' :: '\n' :: '\r' :: '\n' :: rest).length - 1) + 2 := by
    simp [List.length_append]
  rw [hlen]
  exact fromRawAux_cl_ok _ Headers.empty value rest hv n hp

theorem from_raw_cl_err (value rest : Bytes) (hv : '\r' ∉ value)
    (hp : parseNat? (skipSpaces value) = none) :
    Headers.from_raw
        ("Content-Length: ".toList ++ value ++ '\r' :: '\n' :: '\r' :: '\n' :: rest)
      = Except.error HttpError.invalidContentLength := by
  unfold Headers.from_raw
  have hlen : ("Content-Length: ".toList ++ value
      ++ '\r' :: '\n' :: '\r' :: '\n' :: rest).length + 1
      = (("Content-Length: ".toList ++ value
          ++ '\r' :: '\n' :: '\r' :: '\n' :: rest).length - 1) + 2 := by
    simp [List.length_append]
  rw [hlen]
  exact fromRawAux_cl_err _ Headers.empty value rest hv hp

theorem response_new_eq (stream : Bytes) (vr : HttpVersion × RawStatus) (s1 : Bytes)
    (status : StatusCode) (headers : Headers) (s2 : Bytes) (r : HttpReader)
    (h1 : read_status_line stream = .ok (vr, s1))
    (h2 : StatusCode.fromU16 vr.2.code = some status)
    (h3 : Headers.from_raw s1 = .ok (headers, s2))
    (h4 : (selectBody headers s2).1 = BodySel.reader r) :
    Response.new stream = NewResult.ok
      { status := status, headers := headers, version := vr.1,
        status_raw := vr.2, body := r } := by
  unfold Response.new
  simp [h1, h2, h3, h4]

theorem response_new_hdr_err (stream : Bytes) (vr : HttpVersion × RawStatus) (s1 : Bytes)
    (status : StatusCode) (e : HttpError)
    (h1 : read_status_line stream = .ok (vr, s1))
    (h2 : StatusCode.fromU16 vr.2.code = some status)
    (h3 : Headers.from_raw s1 = .error e) :
    Response.new stream = NewResult.err e := by
  unfold Response.new
  simp [h1, h2, h3]

theorem response_new_status_err (stream : Bytes) (vr : HttpVersion × RawStatus) (s1 : Bytes)
    (h1 : read_status_line stream = .ok (vr, s1))
    (h2 : StatusCode.fromU16 vr.2.code = none) :
    Response.new stream = NewResult.err HttpError.httpStatusError := by
  unfold Response.new
  simp [h1, h2]

theorem response_read_step (resp : Response) (n : Nat) :
    resp.read n = ((resp.body.read n).1, { resp with body := (resp.body.read n).2 }) := rfl

theorem sized_read_exact (body extra : Bytes) (hpos : 0 < body.length) :
    HttpReader.read (HttpReader.sizedReader (body ++ extra) body.length) body.length
      = (ReadResult.data body, HttpReader.sizedReader extra 0) := by
  have hne : ¬ body.length = 0 := by omega
  have hemp : body.isEmpty = false := by
    cases body with
    | nil => simp at hpos
    | cons c cs => rfl
  simp [HttpReader.read, hne, Nat.min_self, List.take_left, hemp, List.drop_left]

theorem fromRawAux_consistent (fuel : Nat) :
    ∀ (h : Headers) (input : Bytes) (h2 : Headers) (rest : Bytes),
      h.consistent → fromRawAux fuel h input = Except.ok (h2, rest) → h2.consistent := by
  induction fuel with
  | zero =>
    intro h input h2 rest hc heq
    exact absurd heq (by simp [fromRawAux])
  | succ fuel ih =>
    intro h input h2 rest hc heq
    unfold fromRawAux at heq
    split at heq
    · cases heq
    · split at heq
      · cases heq
        exact hc
      · split at heq
        · cases heq
        · split at heq
          · exact ih _ _ _ _ (by exact ⟨fun _ => rfl, hc.2⟩) heq
          · split at heq
            · split at heq
              · exact ih _ _ _ _ (by exact ⟨hc.1, fun _ => rfl⟩) heq
              · cases heq
            · exact ih _ _ _ _ hc heq

theorem emptyHeaders_consistent : Headers.empty.consistent :=
  ⟨fun hh => by simp [Headers.empty] at hh, fun hh => by simp [Headers.empty] at hh⟩

theorem from_raw_consistent {input : Bytes} {h2 : Headers} {rest : Bytes}
    (heq : Headers.from_raw input = Except.ok (h2, rest)) : h2.consistent := by
  unfold Headers.from_raw at heq
  exact fromRawAux_consistent _ _ _ _ _ emptyHeaders_consistent heq

theorem selectBody_total_of_consistent (h : Headers) (s : BufferedSource)
    (hc : h.consistent) : ∃ r, (selectBody h s).1 = BodySel.reader r := by
  by_cases hte : h.hasTE = true
  · cases hgte : h.getTE with
    | none => exact absurd (hc.1 hte) (by rw [hgte]; simp)
    | some codings =>
      by_cases hch : Coding.chunked ∈ codings
      · exact ⟨HttpReader.chunkedReader s none, by simp [selectBody, hte, hgte, hch]⟩
      · exact ⟨HttpReader.eofReader s, by simp [selectBody, hte, hgte, hch]⟩
  · by_cases hcl : h.hasCL = true
    · cases hgcl : h.getCL with
      | none => exact absurd (hc.2 hcl) (by rw [hgcl]; simp)
      | some len =>
        exact ⟨HttpReader.sizedReader s len, by simp [selectBody, hte, hcl, hgcl]⟩
    · exact ⟨HttpReader.eofReader s, by simp [selectBody, hte, hcl]⟩

theorem response_new_no_panic (stream : Bytes) :
    Response.new stream ≠ NewResult.panic := by
  intro hpanic
  unfold Response.new at hpanic
  cases hrsl : read_status_line stream with
  | error e => simp [hrsl] at hpanic
  | ok p =>
    obtain ⟨vr, s1⟩ := p
    cases hfu : StatusCode.fromU16 vr.2.code with
    | none => simp [hrsl, hfu] at hpanic
    | some status =>
      cases hfr : Headers.from_raw s1 with
      | error e => simp [hrsl, hfu, hfr] at hpanic
      | ok q =>
        obtain ⟨headers, s2⟩ := q
        obtain ⟨r, hr⟩ :=
          selectBody_total_of_consistent headers s2 (from_raw_consistent hfr)
        simp [hrsl, hfu, hfr, hr] at hpanic

/-! ## Claims about the framing selector (response.rs lines 41–65) -/

/-- Claim C2: whenever Transfer-Encoding is present and its ordered token
sequence contains `chunked` — at any position, regardless of other tokens
and regardless of any Content-Length header — the selection block of
`Response::new` constructs the `ChunkedReader`. -/
theorem chunked_precedence (h : Headers) (codings : List Coding) (s : BufferedSource)
    (hte : h.hasTE = true) (hget : h.getTE = some codings)
    (hmem : Coding.chunked ∈ codings) :
    (selectBody h s).1 = BodySel.reader (HttpReader.chunkedReader s none) := by
  simp [selectBody, hte, hget, hmem]

theorem chunked_precedence_witness :
    (selectBody ⟨true, some [Coding.other "gzip", Coding.chunked], true, some 7⟩
        "x".toList).1 =
      BodySel.reader (HttpReader.chunkedReader "x".toList none) :=
  chunked_precedence _ _ _ rfl rfl (by decide)

/-- Claim C6: whenever Transfer-Encoding is present but `chunked` is absent
from its token sequence, the selection block of `Response::new` constructs
the `EofReader` (read-to-close), even when Content-Length is also present;
the other codings are passed through undecoded. -/
theorem te_without_chunked_eof (h : Headers) (codings : List Coding) (s : BufferedSource)
    (hte : h.hasTE = true) (hget : h.getTE = some codings)
    (hmem : Coding.chunked ∉ codings) :
    (selectBody h s).1 = BodySel.reader (HttpReader.eofReader s) := by
  simp [selectBody, hte, hget, hmem]

theorem te_without_chunked_eof_witness :
    (selectBody ⟨true, some [Coding.other "gzip"], true, some 12⟩ "y".toList).1 =
      BodySel.reader (HttpReader.eofReader "y".toList) :=
  te_without_chunked_eof _ _ _ rfl rfl (by decide)

/-- Claim C7: with no Transfer-Encoding header and a Content-Length header
carrying the non-negative integer `n`, the selection block of
`Response::new` constructs `SizedReader` over the buffered source with
remaining-byte count exactly `n`. -/
theorem content_length_sized (h : Headers) (n : Nat) (s : BufferedSource)
    (hte : h.hasTE = false) (hcl : h.hasCL = true) (hget : h.getCL = some n) :
    (selectBody h s).1 = BodySel.reader (HttpReader.sizedReader s n) := by
  simp [selectBody, hte, hcl, hget]

theorem content_length_sized_witness :
    (selectBody ⟨false, none, true, some 5⟩ "hello".toList).1 =
      BodySel.reader (HttpReader.sizedReader "hello".toList 5) :=
  content_length_sized _ _ _ rfl rfl rfl

/-- Claim C8: a Transfer-Encoding sequence with more than one coding token
makes the selection block of `Response::new` emit the logged diagnostic
about the extra codings; it still produces a body reader and never fails
construction on that account. -/
theorem multi_coding_diag_only (h : Headers) (codings : List Coding) (s : BufferedSource)
    (hte : h.hasTE = true) (hget : h.getTE = some codings)
    (hlen : 1 < codings.length) :
    (∃ r, (selectBody h s).1 = BodySel.reader r) ∧
      multiCodingDiag ∈ (selectBody h s).2 := by
  by_cases hch : Coding.chunked ∈ codings
  · exact ⟨⟨HttpReader.chunkedReader s none, by simp [selectBody, hte, hget, hch]⟩,
      by simp [selectBody, hte, hget, hch, hlen]⟩
  · exact ⟨⟨HttpReader.eofReader s, by simp [selectBody, hte, hget, hch]⟩,
      by simp [selectBody, hte, hget, hch, hlen]⟩

theorem multi_coding_diag_only_witness :
    (∃ r, (selectBody ⟨true, some [Coding.chunked, Coding.other "gzip"], false, none⟩
        "z".toList).1 = BodySel.reader r) ∧
      multiCodingDiag ∈
        (selectBody ⟨true, some [Coding.chunked, Coding.other "gzip"], false, none⟩
          "z".toList).2 :=
  multi_coding_diag_only _ _ _ rfl rfl (by decide)

/-- Claim C9: under the consistency precondition that a positive `has`
check implies `get` returns a value (for Transfer-Encoding and
Content-Length), the two `unreachable!()` branches of the selection block
are never reached — the selection always yields a body reader — and
`Response::new` as a whole never panics: it returns `Ok` or an error. -/
theorem select_body_total :
    (∀ (h : Headers) (s : BufferedSource),
      (h.hasTE = true → h.getTE.isSome = true) →
      (h.hasCL = true → h.getCL.isSome = true) →
      ∃ r, (selectBody h s).1 = BodySel.reader r) ∧
    (∀ stream : Bytes, Response.new stream ≠ NewResult.panic) :=
  ⟨fun h s h1 h2 => selectBody_total_of_consistent h s ⟨h1, h2⟩,
   response_new_no_panic⟩

theorem select_body_total_witness :
    (∃ r, (selectBody ⟨false, none, false, none⟩ "w".toList).1 = BodySel.reader r) ∧
      Response.new [] ≠ NewResult.panic :=
  ⟨select_body_total.1 ⟨false, none, false, none⟩ "w".toList (by decide) (by decide),
   select_body_total.2 []⟩

/-! ## Claims about construction, draining and unwrap at the wire level -/

/-- Claim C1: for a well-formed fixed-length response — status line
`HTTP/1.1 200 OK`, a Content-Length header whose digits parse to `n`, an
`n`-byte body, then arbitrary extra bytes — `Response::new` succeeds with a
`SizedReader` over the buffered source; reading the body yields exactly the
body, a further read reports end-of-stream, and unwrap then returns the
transport positioned immediately after the body: exactly the extra bytes,
none consumed, none lost. -/
theorem sized_drain_unwrap (digits body extra : Bytes) (n : Nat)
    (hd : parseNat? digits = some n) (hlen : body.length = n) (hpos : 0 < n) :
    ∃ resp : Response,
      Response.new ("HTTP/1.1 200 OK".toList ++ '\r' :: '\n' ::
          ("Content-Length: ".toList ++ digits
            ++ '\r' :: '\n' :: '\r' :: '\n' :: (body ++ extra)))
        = NewResult.ok resp ∧
      resp.body = HttpReader.sizedReader (body ++ extra) n ∧
      (resp.read n).1 = ReadResult.data body ∧
      ((resp.read n).2.read 1).1 = ReadResult.eof ∧
      ((resp.read n).2.read 1).2.unwrap = extra := by
  subst hlen
  have hall := parseNat?_all_digits hd
  have hrsl := read_status_line_200ok
      ("Content-Length: ".toList ++ digits
        ++ '\r' :: '\n' :: '\r' :: '\n' :: (body ++ extra))
  have hfr := from_raw_cl_ok digits (body ++ extra)
      (all_digits_not_mem hall (by decide)) body.length
      (by rw [skipSpaces_all_digits hall]; exact hd)
  have hsel : (selectBody (⟨false, none, true, some body.length⟩ : Headers)
      (body ++ extra)).1
      = BodySel.reader (HttpReader.sizedReader (body ++ extra) body.length) := by
    simp [selectBody]
  have hnew := response_new_eq _ (HttpVersion.http11, ⟨200, "OK"⟩) _
      ⟨200, by decide⟩ ⟨false, none, true, some body.length⟩ (body ++ extra)
      (HttpReader.sizedReader (body ++ extra) body.length)
      hrsl (by decide) hfr hsel
  have hread := sized_read_exact body extra hpos
  refine ⟨_, hnew, rfl, ?_, ?_, ?_⟩
  · simp only [response_read_step, hread]
  · simp only [response_read_step, hread]
    simp [HttpReader.read]
  · simp only [response_read_step, hread]
    simp [HttpReader.read, Response.unwrap, HttpReader.unwrap, BufferedSource.unwrap]

theorem sized_drain_unwrap_scenario :
    (∃ resp : Response,
      Response.new ("HTTP/1.1 200 OK".toList ++ '\r' :: '\n' ::
          ("Content-Length: ".toList ++ "5".toList
            ++ '\r' :: '\n' :: '\r' :: '\n' :: ("hello".toList ++ "IGNORE".toList)))
        = NewResult.ok resp ∧
      resp.body = HttpReader.sizedReader ("hello".toList ++ "IGNORE".toList) 5 ∧
      (resp.read 5).1 = ReadResult.data "hello".toList ∧
      ((resp.read 5).2.read 1).1 = ReadResult.eof ∧
      ((resp.read 5).2.read 1).2.unwrap = "IGNORE".toList) ∧
    (streamRead "IGNORE".toList 6).1 = ReadResult.data "IGNORE".toList :=
  ⟨sized_drain_unwrap "5".toList "hello".toList "IGNORE".toList 5
      (by decide) (by decide) (by decide),
   by decide⟩

/-- Claim C3: a Content-Length header whose value does not parse as a
non-negative integer makes `Response::new` fail with the
invalid-content-length protocol error: no guessed length, no fallback
strategy, no panic. -/
theorem invalid_content_length_errors (value rest : Bytes)
    (hcr : '\r' ∉ value) (hbad : parseNat? (skipSpaces value) = none) :
    Response.new ("HTTP/1.1 200 OK".toList ++ '\r' :: '\n' ::
        ("Content-Length: ".toList ++ value ++ '\r' :: '\n' :: '\r' :: '\n' :: rest))
      = NewResult.err HttpError.invalidContentLength :=
  response_new_hdr_err _ (HttpVersion.http11, ⟨200, "OK"⟩) _ ⟨200, by decide⟩ _
    (read_status_line_200ok _) (by decide) (from_raw_cl_err value rest hcr hbad)

theorem invalid_content_length_errors_witness :
    Response.new ("HTTP/1.1 200 OK".toList ++ '\r' :: '\n' ::
        ("Content-Length: ".toList ++ "abc".toList
          ++ '\r' :: '\n' :: '\r' :: '\n' :: ([] : Bytes)))
      = NewResult.err HttpError.invalidContentLength :=
  invalid_content_length_errors "abc".toList [] (by decide) (by decide)

/-- Claim C5: a status line whose numeric code has no enumerated
`StatusCode` mapping makes `Response::new` return `Err(HttpStatusError)`;
no partial `Response` handle is produced and the typed status is never
silently defaulted. -/
theorem unknown_status_code_fails (digits reason rest : Bytes) (code : Nat)
    (hd : parseNat? digits = some code) (hr : '\r' ∉ reason)
    (hm : StatusCode.fromU16 code = none) :
    Response.new ("HTTP/1.1 ".toList ++ digits ++ ' ' :: reason ++ '\r' :: '\n' :: rest)
      = NewResult.err HttpError.httpStatusError ∧
    ∀ resp : Response,
      Response.new ("HTTP/1.1 ".toList ++ digits ++ ' ' :: reason ++ '\r' :: '\n' :: rest)
        ≠ NewResult.ok resp := by
  have hmain := response_new_status_err _ (HttpVersion.http11, ⟨code, String.mk reason⟩) rest
      (read_status_line_append digits reason rest code hd hr) hm
  exact ⟨hmain, fun resp hok => by rw [hmain] at hok; cases hok⟩

theorem unknown_status_code_fails_witness :
    Response.new ("HTTP/1.1 ".toList ++ "999".toList ++ ' ' :: "Because".toList
        ++ '\r' :: '\n' :: ([] : Bytes))
      = NewResult.err HttpError.httpStatusError ∧
    ∀ resp : Response,
      Response.new ("HTTP/1.1 ".toList ++ "999".toList ++ ' ' :: "Because".toList
          ++ '\r' :: '\n' :: ([] : Bytes)) ≠ NewResult.ok resp :=
  unknown_status_code_fails "999".toList "Because".toList [] 999
    (by decide) (by decide) (by decide)

/-- Counterexample to claim C4 at the concrete status line
`HTTP/1.1 999 Because`: construction does fail with `HttpStatusError`, but
since no `Response` value is produced and the error carries no payload, the
raw status pair `(999, "Because")` is not inspectable through the
`status_raw` accessor (which requires a constructed `Response`). -/
theorem raw_status_inspectable_cex :
    Response.new "HTTP/1.1 999 Because\r\n\r\n".toList
        = NewResult.err HttpError.httpStatusError ∧
      ¬ ∃ resp : Response,
          Response.new "HTTP/1.1 999 Because\r\n\r\n".toList = NewResult.ok resp ∧
          resp.status_raw = RawStatus.mk 999 "Because" := by
  have hmain : Response.new "HTTP/1.1 999 Because\r\n\r\n".toList
      = NewResult.err HttpError.httpStatusError := by decide
  refine ⟨hmain, ?_⟩
  rintro ⟨resp, hok, -⟩
  rw [hmain] at hok
  cases hok

/-- Claim C4 (amended): a status line with an unmapped numeric code makes
construction fail with `HttpStatusError`; because that error value carries
no status data and no `Response` handle exists, the raw status pair is not
reachable through the `status_raw` accessor. -/
theorem unknown_status_error_carries_no_raw_status (digits reason rest : Bytes) (code : Nat)
    (hd : parseNat? digits = some code) (hr : '\r' ∉ reason)
    (hm : StatusCode.fromU16 code = none) :
    Response.new ("HTTP/1.1 ".toList ++ digits ++ ' ' :: reason ++ '\r' :: '\n' :: rest)
      = NewResult.err HttpError.httpStatusError ∧
    ¬ ∃ resp : Response,
        Response.new ("HTTP/1.1 ".toList ++ digits ++ ' ' :: reason ++ '\r' :: '\n' :: rest)
          = NewResult.ok resp := by
  have hmain := response_new_status_err _ (HttpVersion.http11, ⟨code, String.mk reason⟩) rest
      (read_status_line_append digits reason rest code hd hr) hm
  refine ⟨hmain, ?_⟩
  rintro ⟨resp, hok⟩
  rw [hmain] at hok
  cases hok

theorem unknown_status_error_carries_no_raw_status_witness :
    Response.new ("HTTP/1.1 ".toList ++ "999".toList ++ ' ' :: "NonStandard".toList
        ++ '\r' :: '\n' :: ([] : Bytes))
      = NewResult.err HttpError.httpStatusError ∧
    ¬ ∃ resp : Response,
        Response.new ("HTTP/1.1 ".toList ++ "999".toList ++ ' ' :: "NonStandard".toList
            ++ '\r' :: '\n' :: ([] : Bytes)) = NewResult.ok resp :=
  unknown_status_error_carries_no_raw_status "999".toList "NonStandard".toList [] 999
    (by decide) (by decide) (by decide)

/-- Claim C10: every successfully constructed `Response` keeps its typed
status and its raw status in agreement — the typed code converts back to
the stored raw numeric code, the raw status is exactly the pair the
status-line parser produced, the accessor returns it unchanged, and a read
operation preserves both. -/
theorem status_raw_agreement (stream : Bytes) (resp : Response)
    (hok : Response.new stream = NewResult.ok resp) :
    StatusCode.toU16 resp.status = resp.status_raw.code ∧
    (∃ rest : Bytes,
      read_status_line stream = Except.ok ((resp.version, resp.status_raw), rest)) ∧
    resp.statusRawAcc = resp.status_raw ∧
    (∀ n : Nat, (resp.read n).2.statusRawAcc = resp.statusRawAcc ∧
      (resp.read n).2.status = resp.status) := by
  unfold Response.new at hok
  cases hrsl : read_status_line stream with
  | error e => simp [hrsl] at hok
  | ok p =>
    obtain ⟨vr, s1⟩ := p
    cases hfu : StatusCode.fromU16 vr.2.code with
    | none => simp [hrsl, hfu] at hok
    | some status =>
      cases hfr : Headers.from_raw s1 with
      | error e => simp [hrsl, hfu, hfr] at hok
      | ok q =>
        obtain ⟨headers, s2⟩ := q
        cases hsel : (selectBody headers s2).1 with
        | panic => simp [hrsl, hfu, hfr, hsel] at hok
        | reader r =>
          simp only [hrsl, hfu, hfr, hsel, NewResult.ok.injEq] at hok
          subst hok
          exact ⟨StatusCode.fromU16_toU16 hfu, ⟨s1, rfl⟩, rfl, fun n => ⟨rfl, rfl⟩⟩

/-- A concrete successfully constructed response, used to witness the
status agreement claim. -/
def okResponse : Response :=
  { status := ⟨200, by decide⟩, headers := Headers.empty,
    version := HttpVersion.http11, status_raw := ⟨200, "OK"⟩,
    body := HttpReader.eofReader [] }

theorem status_raw_agreement_witness :
    StatusCode.toU16 okResponse.status = okResponse.status_raw.code ∧
    (∃ rest : Bytes,
      read_status_line "HTTP/1.1 200 OK\r\n\r\n".toList
        = Except.ok ((okResponse.version, okResponse.status_raw), rest)) ∧
    okResponse.statusRawAcc = okResponse.status_raw ∧
    (∀ n : Nat, (okResponse.read n).2.statusRawAcc = okResponse.statusRawAcc ∧
      (okResponse.read n).2.status = okResponse.status) :=
  status_raw_agreement "HTTP/1.1 200 OK\r\n\r\n".toList okResponse (by decide)

end Hyper
